import Mathlib

/-!
Shallow embedding of the registration/promotion core of the football-bot
repository (`src/database.py`, class `FootballDatabase`), together with the
verification of its specification claims.

The SQLite store is modelled as an explicit state (`DB`): two relations
(`events`, `registrations`), the AUTOINCREMENT counters, and a logical clock
standing for `CURRENT_TIMESTAMP` (strictly increasing, so timestamps of
distinct rows are distinct).  SQL `TEXT` columns are `String`s, nullable
columns are `Option String`.  An uncaught Python exception is made explicit
(`RegResult.raised`); the surrounding `with sqlite3.connect(...)` block rolls
the transaction back, so the state is unchanged in that case.
-/

/-- A row of the `events` table (`database.py`, `init_database`). -/
structure Event where
  id : Nat
  date : String
  time : String
  max_players : Nat
  description : String
  created_by : Int
  created_at : Nat
  status : String
deriving DecidableEq, Repr

/-- A row of the `registrations` table (`database.py`, `init_database`).
`registered_at` is the insertion timestamp (logical clock). -/
structure Registration where
  id : Nat
  event_id : Nat
  user_id : Int
  username : Option String
  first_name : Option String
  registration_type : String
  registered_at : Nat
  status : String
deriving DecidableEq, Repr

/-- The whole persisted store. -/
structure DB where
  events : List Event
  registrations : List Registration
  next_event_id : Nat
  next_reg_id : Nat
  clock : Nat
deriving DecidableEq, Repr

/-- The freshly initialised database (`init_database` on a new file). -/
def initDB : DB := ⟨[], [], 1, 1, 0⟩

/-- `WHERE event_id = ? AND user_id = ? AND status = 'active'`. -/
def isActivePair (e : Nat) (u : Int) (r : Registration) : Bool :=
  r.event_id == e && r.user_id == u && r.status == "active"

/-- The column pair constrained by `UNIQUE(event_id, user_id)`. -/
def isPair (e : Nat) (u : Int) (r : Registration) : Bool :=
  r.event_id == e && r.user_id == u

/-- `WHERE event_id = ? AND registration_type = 'main' AND status = 'active'`. -/
def isActiveMain (e : Nat) (r : Registration) : Bool :=
  r.event_id == e && r.registration_type == "main" && r.status == "active"

/-- `WHERE event_id = ? AND registration_type = 'reserve' AND status = 'active'`. -/
def isActiveReserve (e : Nat) (r : Registration) : Bool :=
  r.event_id == e && r.registration_type == "reserve" && r.status == "active"

/-- `SELECT COUNT(*) FROM registrations WHERE event_id = ? AND
registration_type = 'main' AND status = 'active'`. -/
def mainCount (regs : List Registration) (e : Nat) : Nat :=
  (regs.filter (isActiveMain e)).length

/-- `ORDER BY registered_at` comparator. -/
def byRegisteredAt (a b : Registration) : Prop :=
  a.registered_at ≤ b.registered_at

instance : DecidableRel byRegisteredAt :=
  fun a b => inferInstanceAs (Decidable (a.registered_at ≤ b.registered_at))

instance : IsTotal Registration byRegisteredAt :=
  ⟨fun a b => Nat.le_total a.registered_at b.registered_at⟩

instance : IsTrans Registration byRegisteredAt :=
  ⟨fun _ _ _ hab hbc => Nat.le_trans hab hbc⟩

/-- Outcome of a Python call that may raise an uncaught exception.  On
`raised` the transaction is rolled back, so the store is unchanged. -/
inductive RegResult where
  | raised : RegResult
  | ok : Bool → DB → RegResult
deriving DecidableEq, Repr

/-- `create_event`: inserts a new event row with `status = 'active'` and
returns the fresh AUTOINCREMENT id. -/
def create_event (db : DB) (date time : String) (max_players : Nat)
    (created_by : Int) (description : String) : Nat × DB :=
  let ev : Event :=
    ⟨db.next_event_id, date, time, max_players, description, created_by,
      db.clock, "active"⟩
  (db.next_event_id,
    { db with
        events := db.events ++ [ev]
        next_event_id := db.next_event_id + 1
        clock := db.clock + 1 })

/-- `get_event`: point lookup by id, regardless of status. -/
def get_event (db : DB) (event_id : Nat) : Option Event :=
  db.events.find? (fun ev => ev.id == event_id)

/-- `register_user` (`database.py` lines 81-120).  Steps, in source order:
check for an existing *active* registration (return `False`); count active
main rows; `SELECT max_players` — on an unknown event id `fetchone()` is
`None` and subscripting it raises `TypeError`, which is not caught
(`raised`); decide main/reserve by capacity; `INSERT` — a violation of
`UNIQUE(event_id, user_id)` (any status) raises `IntegrityError`, caught and
turned into `False`. -/
def register_user (db : DB) (event_id : Nat) (user_id : Int)
    (username first_name : Option String) : RegResult :=
  if (db.registrations.find? (isActivePair event_id user_id)).isSome then
    .ok false db
  else
    let main_count := mainCount db.registrations event_id
    match get_event db event_id with
    | none => .raised
    | some ev =>
      let reg_type := if main_count < ev.max_players then "main" else "reserve"
      if (db.registrations.find? (isPair event_id user_id)).isSome then
        .ok false db
      else
        let r : Registration :=
          ⟨db.next_reg_id, event_id, user_id, username, first_name, reg_type,
            db.clock, "active"⟩
        .ok true
          { db with
              registrations := db.registrations ++ [r]
              next_reg_id := db.next_reg_id + 1
              clock := db.clock + 1 }

/-- The state after a `register_user` call (unchanged when it raises). -/
def applyRegister (db : DB) (event_id : Nat) (user_id : Int)
    (username first_name : Option String) : DB :=
  match register_user db event_id user_id username first_name with
  | .raised => db
  | .ok _ db' => db'

/-- The `UPDATE ... SET status = 'cancelled' WHERE event_id = ? AND
user_id = ? AND status = 'active'` row transformer. -/
def cancelRow (e : Nat) (u : Int) (s : Registration) : Registration :=
  if isActivePair e u s then { s with status := "cancelled" } else s

/-- The `UPDATE ... SET registration_type = 'main' WHERE event_id = ? AND
user_id = ? AND status = 'active'` row transformer (promotion). -/
def promoteRow (e : Nat) (u : Int) (s : Registration) : Registration :=
  if isActivePair e u s then { s with registration_type := "main" } else s

/-- `SELECT user_id FROM registrations WHERE event_id = ? AND
registration_type = 'reserve' AND status = 'active' ORDER BY registered_at
LIMIT 1`. -/
def selectReserve (regs : List Registration) (e : Nat) : Option Registration :=
  (List.insertionSort byRegisteredAt (regs.filter (isActiveReserve e))).head?

/-- `unregister_user` (`database.py` lines 122-164): look up the active
registration (return `False` if none), mark it cancelled, and if its type was
`'main'` promote the earliest active reserve registration (if any). -/
def unregister_user (db : DB) (event_id : Nat) (user_id : Int) : Bool × DB :=
  match db.registrations.find? (isActivePair event_id user_id) with
  | none => (false, db)
  | some r0 =>
    let regs1 := db.registrations.map (cancelRow event_id user_id)
    let regs2 :=
      if r0.registration_type == "main" then
        match selectReserve regs1 event_id with
        | none => regs1
        | some w => regs1.map (promoteRow event_id w.user_id)
      else regs1
    (true, { db with registrations := regs2 })

/-- `cancel_event` (`database.py` lines 209-219): `UPDATE events SET status =
'cancelled' WHERE id = ?`, returning `cursor.rowcount > 0`.  SQLite counts a
row as changed whenever the `WHERE` clause matches it, even if `status` was
already `'cancelled'`. -/
def cancel_event (db : DB) (event_id : Nat) : Bool × DB :=
  (db.events.any (fun ev => ev.id == event_id),
    { db with
        events := db.events.map (fun ev =>
          if ev.id == event_id then { ev with status := "cancelled" } else ev) })

/-- An entry returned by `get_players_for_teams`. -/
structure Player where
  user_id : Int
  username : Option String
  first_name : Option String
  display_name : String
deriving DecidableEq, Repr

/-- Python `a or b` on an optional string: `None` and `""` are falsy. -/
def pyStrOr (a : Option String) (b : String) : String :=
  match a with
  | none => b
  | some s => if s == "" then b else s

/-- `get_players_for_teams` (`database.py` lines 221-241): active main-type
rows of the event, `ORDER BY registered_at`, with
`display_name = first_name or username or str(user_id)`. -/
def get_players_for_teams (db : DB) (event_id : Nat) : List Player :=
  (List.insertionSort byRegisteredAt
      (db.registrations.filter (isActiveMain event_id))).map
    (fun r =>
      ⟨r.user_id, r.username, r.first_name,
        pyStrOr r.first_name (pyStrOr r.username (toString r.user_id))⟩)

/-- An entry of `get_event_registrations` output. -/
structure PInfo where
  user_id : Int
  username : Option String
  first_name : Option String
  registered_at : Nat
deriving DecidableEq, Repr

/-- `ORDER BY registration_type, registered_at` comparator. -/
def byTypeThenTime (a b : Registration) : Prop :=
  a.registration_type < b.registration_type ∨
    (a.registration_type = b.registration_type ∧ a.registered_at ≤ b.registered_at)

instance : DecidableRel byTypeThenTime :=
  fun a b =>
    inferInstanceAs (Decidable (a.registration_type < b.registration_type ∨
      (a.registration_type = b.registration_type ∧
        a.registered_at ≤ b.registered_at)))

/-- Result shape of `get_event_registrations`. -/
structure RegPartition where
  main : List PInfo
  reserve : List PInfo
deriving DecidableEq, Repr

/-- `get_event_registrations` (`database.py` lines 166-194): active rows of
the event ordered by `(registration_type, registered_at)`, appended into the
`main`/`reserve` buckets in that order. -/
def get_event_registrations (db : DB) (event_id : Nat) : RegPartition :=
  let rows := List.insertionSort byTypeThenTime
    (db.registrations.filter (fun r =>
      r.event_id == event_id && r.status == "active"))
  { main := (rows.filter (fun r => r.registration_type == "main")).map
      (fun r => ⟨r.user_id, r.username, r.first_name, r.registered_at⟩)
    reserve := (rows.filter (fun r => r.registration_type == "reserve")).map
      (fun r => ⟨r.user_id, r.username, r.first_name, r.registered_at⟩) }

/-- States reachable from the fresh database by the store's mutating
operations, each executed sequentially as one atomic call. -/
inductive Reachable : DB → Prop where
  | init : Reachable initDB
  | create (db : DB) (d t : String) (m : Nat) (cb : Int) (ds : String) :
      Reachable db → Reachable (create_event db d t m cb ds).2
  | register (db : DB) (e : Nat) (u : Int) (un fn : Option String) :
      Reachable db → Reachable (applyRegister db e u un fn)
  | unregister (db : DB) (e : Nat) (u : Int) :
      Reachable db → Reachable (unregister_user db e u).2
  | cancel (db : DB) (e : Nat) :
      Reachable db → Reachable (cancel_event db e).2

/-! ### Concrete scenario states (event capacity 2; users 7, 8, 9) -/

/-- One event (id 1, `max_players = 2`). -/
def dbE : DB := (create_event initDB "01/01/2026" "18:00" 2 1 "").2

/-- User 7 joined (main). -/
def dbA : DB := applyRegister dbE 1 7 (some "alice") (some "Alice")

/-- Users 7 and 8 joined (both main). -/
def dbAB : DB := applyRegister dbA 1 8 (some "bob") (some "Bob")

/-- Users 7, 8 (main) and 9 (reserve) joined. -/
def dbABC : DB := applyRegister dbAB 1 9 none (some "Cara")

/-- After user 7 left `dbABC`: 7 cancelled, 9 promoted to main. -/
def dbL : DB := (unregister_user dbABC 1 7).2

/-- Event 1 of `dbE` cancelled, no registrations. -/
def dbCancelled : DB := (cancel_event dbE 1).2

/-- User 77 joined `dbE` with a present-but-empty first name. -/
def dbEmptyFirst : DB := applyRegister dbE 1 77 (some "bob") (some "")

/-- The display-name resolution rule of the amended claim: the first of
`first_name`, `username` that is present *and non-empty*, else the
stringified user id (Python's `or` treats both `None` and `""` as falsy). -/
def resolveDisplayName (first_name username : Option String)
    (user_id : Int) : String :=
  match first_name with
  | some s =>
    if s = "" then
      match username with
      | some t => if t = "" then toString user_id else t
      | none => toString user_id
    else s
  | none =>
    match username with
    | some t => if t = "" then toString user_id else t
    | none => toString user_id

/-- Pointwise relation between a pre-state registration row and the
corresponding post-state row of a successful `unregister_user e u` call:
identity, display fields and timestamp survive; the leaver's active row
becomes cancelled and every other status survives; and exactly the promotion
target `w?` (identified by its timestamp, which is unique in a well-formed
store) changes `registration_type` to `main`. -/
def unregRowRel (e : Nat) (u : Int) (w? : Option Registration)
    (r r' : Registration) : Prop :=
  r'.id = r.id ∧ r'.event_id = r.event_id ∧ r'.user_id = r.user_id ∧
  r'.username = r.username ∧ r'.first_name = r.first_name ∧
  r'.registered_at = r.registered_at ∧
  r'.status = (if isActivePair e u r then "cancelled" else r.status) ∧
  r'.registration_type =
    (match w? with
     | some w =>
       if r.registered_at = w.registered_at then "main"
       else r.registration_type
     | none => r.registration_type)

/-! ### Generic list lemmas -/

/-- In a list where at most one element satisfies `q`, any two members
satisfying `q` are equal. -/
theorem countP_le_one_mem_eq {α : Type} (q : α → Bool) :
    ∀ (l : List α), l.countP q ≤ 1 → ∀ a ∈ l, ∀ b ∈ l,
      q a = true → q b = true → a = b := by
  intro l
  induction l with
  | nil => intro _ a ha; cases ha
  | cons x t ih =>
    intro hle a ha b hb hqa hqb
    rw [List.countP_cons] at hle
    rcases List.mem_cons.mp ha with rfl | ha' <;>
      rcases List.mem_cons.mp hb with rfl | hb'
    · rfl
    · have h1 : 0 < t.countP q := List.countP_pos_iff.mpr ⟨b, hb', hqb⟩
      rw [if_pos hqa] at hle
      omega
    · have h1 : 0 < t.countP q := List.countP_pos_iff.mpr ⟨a, ha', hqa⟩
      rw [if_pos hqb] at hle
      omega
    · exact ih (by omega) a ha' b hb' hqa hqb

/-- Splitting a count along a second predicate. -/
theorem countP_split {α : Type} (p q : α → Bool) (l : List α) :
    l.countP p =
      l.countP (fun a => p a && q a) + l.countP (fun a => p a && !q a) := by
  induction l with
  | nil => rfl
  | cons x t ih =>
    simp only [List.countP_cons, ih]
    cases hp : p x <;> cases hq : q x <;> simp [hp, hq] <;> omega

/-- A map that does not change whether elements satisfy `p`, and fixes the
elements that do, commutes with `filter p`. -/
theorem filter_map_eq_filter {α : Type} (p : α → Bool) (f : α → α) :
    ∀ (l : List α), (∀ s ∈ l, p (f s) = p s) →
      (∀ s ∈ l, p s = true → f s = s) →
      (l.map f).filter p = l.filter p := by
  intro l
  induction l with
  | nil => intro _ _; rfl
  | cons x t ih =>
    intro h1 h2
    have hx : p (f x) = p x := h1 x (List.mem_cons_self x t)
    have iht := ih (fun s hs => h1 s (List.mem_cons_of_mem x hs))
      (fun s hs => h2 s (List.mem_cons_of_mem x hs))
    by_cases hpx : p x = true
    · have hfx : f x = x := h2 x (List.mem_cons_self x t) hpx
      simp [List.filter_cons, hfx, hpx, iht]
    · have hpx' : p x = false := by
        cases hp : p x
        · rfl
        · exact absurd hp hpx
      simp [List.filter_cons, hx, hpx', iht]

/-- A map that does not change whether elements satisfy `p` preserves the
count of `p`. -/
theorem countP_map_eq {α : Type} (p : α → Bool) (f : α → α) (l : List α)
    (h : ∀ s ∈ l, p (f s) = p s) : (l.map f).countP p = l.countP p := by
  rw [List.countP_map]
  exact List.countP_congr (fun x hx => by
    simp only [Function.comp]
    rw [h x hx])

/-! ### Row-transformer lemmas -/

theorem cancelRow_fields (e : Nat) (u : Int) (s : Registration) :
    (cancelRow e u s).id = s.id ∧
    (cancelRow e u s).event_id = s.event_id ∧
    (cancelRow e u s).user_id = s.user_id ∧
    (cancelRow e u s).registration_type = s.registration_type ∧
    (cancelRow e u s).registered_at = s.registered_at := by
  unfold cancelRow
  split <;> exact ⟨rfl, rfl, rfl, rfl, rfl⟩

theorem promoteRow_fields (e : Nat) (u : Int) (s : Registration) :
    (promoteRow e u s).id = s.id ∧
    (promoteRow e u s).event_id = s.event_id ∧
    (promoteRow e u s).user_id = s.user_id ∧
    (promoteRow e u s).registered_at = s.registered_at ∧
    (promoteRow e u s).status = s.status := by
  unfold promoteRow
  split <;> exact ⟨rfl, rfl, rfl, rfl, rfl⟩

theorem isPair_cancelRow (e' : Nat) (u' : Int) (e : Nat) (u : Int)
    (s : Registration) : isPair e' u' (cancelRow e u s) = isPair e' u' s := by
  unfold isPair cancelRow
  split <;> rfl

theorem isPair_promoteRow (e' : Nat) (u' : Int) (e : Nat) (u : Int)
    (s : Registration) : isPair e' u' (promoteRow e u s) = isPair e' u' s := by
  unfold isPair promoteRow
  split <;> rfl

/-- `find?` by id in a list with pairwise-distinct ids determines the unique
member with that id. -/
theorem find?_id_unique (e : Nat) :
    ∀ (l : List Event), l.Pairwise (fun a b => a.id ≠ b.id) →
      ∀ ev, l.find? (fun x => x.id == e) = some ev →
      ∀ ev' ∈ l, ev'.id = e → ev' = ev := by
  intro l
  induction l with
  | nil => intro _ ev h; cases h
  | cons x t ih =>
    intro hpw ev hf ev' hm he
    rw [List.pairwise_cons] at hpw
    cases hx : x.id == e with
    | true =>
      simp only [List.find?_cons, hx] at hf
      rcases List.mem_cons.mp hm with rfl | hm'
      · exact Option.some.inj hf
      · exact absurd ((eq_of_beq hx).trans he.symm) (hpw.1 ev' hm')
    | false =>
      simp only [List.find?_cons, hx] at hf
      rcases List.mem_cons.mp hm with rfl | hm'
      · exact absurd (beq_iff_eq.mpr he) (by simp [hx])
      · exact ih hpw.2 ev hf ev' hm' he

/-! ### The well-formedness invariant -/

/-- Invariants of the store maintained by every operation: the
`UNIQUE(event_id, user_id)` constraint, well-typed enum columns, fresh and
distinct AUTOINCREMENT ids and timestamps, and the capacity invariant
(Invariant 1 of the specification). -/
structure WF (db : DB) : Prop where
  uniq : ∀ (e : Nat) (u : Int), db.registrations.countP (isPair e u) ≤ 1
  ty : ∀ r ∈ db.registrations,
    r.registration_type = "main" ∨ r.registration_type = "reserve"
  evlt : ∀ ev ∈ db.events, ev.id < db.next_event_id
  evuniq : db.events.Pairwise (fun a b => a.id ≠ b.id)
  reglt : ∀ r ∈ db.registrations, r.event_id < db.next_event_id
  atlt : ∀ r ∈ db.registrations, r.registered_at < db.clock
  atuniq : db.registrations.Pairwise
    (fun a b => a.registered_at ≠ b.registered_at)
  cap : ∀ ev ∈ db.events, mainCount db.registrations ev.id ≤ ev.max_players

theorem wf_initDB : WF initDB := by
  refine ⟨?_, ?_, ?_, ?_, ?_, ?_, ?_, ?_⟩ <;> simp [initDB]

theorem wf_create (db : DB) (h : WF db) (d t : String) (m : Nat) (cb : Int)
    (ds : String) : WF (create_event db d t m cb ds).2 := by
  obtain ⟨uniq, ty, evlt, evuniq, reglt, atlt, atuniq, cap⟩ := h
  refine ⟨?_, ?_, ?_, ?_, ?_, ?_, ?_, ?_⟩ <;>
    simp only [create_event]
  · exact uniq
  · exact ty
  · intro ev hm
    rcases List.mem_append.mp hm with hm' | hm'
    · exact Nat.lt_succ_of_lt (evlt ev hm')
    · rw [List.mem_singleton.mp hm']
      exact Nat.lt_succ_self _
  · rw [List.pairwise_append]
    refine ⟨evuniq, List.pairwise_singleton _ _, ?_⟩
    intro a ha b hb
    rw [List.mem_singleton.mp hb]
    exact Nat.ne_of_lt (evlt a ha)
  · intro r hm
    exact Nat.lt_succ_of_lt (reglt r hm)
  · intro r hm
    exact Nat.lt_succ_of_lt (atlt r hm)
  · exact atuniq
  · intro ev hm
    rcases List.mem_append.mp hm with hm' | hm'
    · exact cap ev hm'
    · rw [List.mem_singleton.mp hm']
      have : db.registrations.filter (isActiveMain db.next_event_id) = [] := by
        rw [List.filter_eq_nil_iff]
        intro r hr hcontra
        unfold isActiveMain at hcontra
        simp only [Bool.and_eq_true, beq_iff_eq] at hcontra
        exact absurd hcontra.1.1 (Nat.ne_of_lt (reglt r hr))
      simp [mainCount, this]

theorem wf_cancel (db : DB) (h : WF db) (e : Nat) : WF (cancel_event db e).2 := by
  obtain ⟨uniq, ty, evlt, evuniq, reglt, atlt, atuniq, cap⟩ := h
  have hid : ∀ ev : Event,
      (if ev.id == e then { ev with status := "cancelled" } else ev).id =
        ev.id := by
    intro ev; split <;> rfl
  have hmax : ∀ ev : Event,
      (if ev.id == e then { ev with status := "cancelled" } else ev).max_players
        = ev.max_players := by
    intro ev; split <;> rfl
  refine ⟨?_, ?_, ?_, ?_, ?_, ?_, ?_, ?_⟩ <;> simp only [cancel_event]
  · exact uniq
  · exact ty
  · intro ev hm
    rcases List.mem_map.mp hm with ⟨a, ha, rfl⟩
    rw [hid a]
    exact evlt a ha
  · rw [List.pairwise_map]
    exact evuniq.imp (fun {a b} hab => by rw [hid a, hid b]; exact hab)
  · exact reglt
  · exact atlt
  · exact atuniq
  · intro ev hm
    rcases List.mem_map.mp hm with ⟨a, ha, rfl⟩
    rw [hid a, hmax a]
    exact cap a ha

/-- Case analysis of `register_user`: it either leaves the store unchanged
(returning `False`, or raising on an unknown event id), or appends exactly
one fresh active row whose type is decided by the capacity rule. -/
theorem register_user_spec (db : DB) (e : Nat) (u : Int)
    (un fn : Option String) :
    register_user db e u un fn = .ok false db ∨
    register_user db e u un fn = .raised ∨
    ∃ ev, get_event db e = some ev ∧
      (∀ s ∈ db.registrations, isPair e u s = false) ∧
      register_user db e u un fn = .ok true
        { db with
            registrations := db.registrations ++
              [⟨db.next_reg_id, e, u, un, fn,
                if mainCount db.registrations e < ev.max_players then "main"
                else "reserve", db.clock, "active"⟩]
            next_reg_id := db.next_reg_id + 1
            clock := db.clock + 1 } := by
  by_cases h1 : (db.registrations.find? (isActivePair e u)).isSome
  · left
    unfold register_user
    rw [if_pos h1]
  · cases hev : get_event db e with
    | none =>
      right; left
      simp only [register_user, hev, if_neg h1]
    | some ev =>
      by_cases h2 : (db.registrations.find? (isPair e u)).isSome
      · left
        simp only [register_user, hev, if_neg h1, if_pos h2]
      · right; right
        refine ⟨ev, rfl, ?_, ?_⟩
        · intro s hs
          cases hps : isPair e u s
          · rfl
          · exact absurd (List.find?_isSome.mpr ⟨s, hs, hps⟩) h2
        · simp only [register_user, hev, if_neg h1, if_neg h2]

theorem wf_applyRegister (db : DB) (h : WF db) (e : Nat) (u : Int)
    (un fn : Option String) : WF (applyRegister db e u un fn) := by
  rcases register_user_spec db e u un fn with hcase | hcase | ⟨ev, hev, hnone, hcase⟩
  · simp only [applyRegister, hcase]
    exact h
  · simp only [applyRegister, hcase]
    exact h
  · simp only [applyRegister, hcase]
    obtain ⟨uniq, ty, evlt, evuniq, reglt, atlt, atuniq, cap⟩ := h
    have hev' : db.events.find? (fun x => x.id == e) = some ev := hev
    have hevmem : ev ∈ db.events := List.mem_of_find?_eq_some hev'
    have hevid : ev.id = e := by simpa using List.find?_some hev'
    refine ⟨?_, ?_, ?_, ?_, ?_, ?_, ?_, ?_⟩
    · intro e' u'
      simp only [List.countP_append, List.countP_cons, List.countP_nil]
      cases hpr : isPair e' u'
          ⟨db.next_reg_id, e, u, un, fn,
            if mainCount db.registrations e < ev.max_players then "main"
            else "reserve", db.clock, "active"⟩
      · simpa [hpr] using uniq e' u'
      · have hee : e = e' ∧ u = u' := by
          unfold isPair at hpr
          simp only [Bool.and_eq_true, beq_iff_eq] at hpr
          exact hpr
        rcases hee with ⟨rfl, rfl⟩
        have hz : db.registrations.countP (isPair e u) = 0 :=
          List.countP_eq_zero.mpr (fun s hs => by simp [hnone s hs])
        simp [hpr, hz]
    · intro r hm
      rcases List.mem_append.mp hm with hm' | hm'
      · exact ty r hm'
      · rw [List.mem_singleton.mp hm']
        by_cases hc : mainCount db.registrations e < ev.max_players
        · left; simp [hc]
        · right; simp [hc]
    · exact evlt
    · exact evuniq
    · intro r hm
      rcases List.mem_append.mp hm with hm' | hm'
      · exact reglt r hm'
      · rw [List.mem_singleton.mp hm']
        exact hevid ▸ evlt ev hevmem
    · intro r hm
      rcases List.mem_append.mp hm with hm' | hm'
      · exact Nat.lt_succ_of_lt (atlt r hm')
      · rw [List.mem_singleton.mp hm']
        exact Nat.lt_succ_self _
    · rw [List.pairwise_append]
      refine ⟨atuniq, List.pairwise_singleton _ _, ?_⟩
      intro a ha b hb
      rw [List.mem_singleton.mp hb]
      exact Nat.ne_of_lt (atlt a ha)
    · intro ev' hm'
      set r : Registration :=
        ⟨db.next_reg_id, e, u, un, fn,
          if mainCount db.registrations e < ev.max_players then "main"
          else "reserve", db.clock, "active"⟩ with hrdef
      simp only [mainCount, List.filter_append, List.length_append]
      cases hr : isActiveMain ev'.id r
      · simpa [hr, mainCount] using cap ev' hm'
      · have hr' := hr
        unfold isActiveMain at hr'
        simp only [Bool.and_eq_true, beq_iff_eq] at hr'
        have hide : ev'.id = e := by
          have h3 := hr'.1.1
          simp only [hrdef] at h3
          exact h3.symm
        have heq : ev' = ev := find?_id_unique e db.events evuniq ev hev' ev' hm' hide
        have hmain := hr'.1.2
        by_cases hc : mainCount db.registrations e < ev.max_players
        · rw [hide] at hr
          rw [hide]
          rw [heq]
          simp only [mainCount] at hc
          simp [hr]
          omega
        · exfalso
          simp only [hrdef, if_neg hc] at hmain
          exact absurd hmain (by decide)

/-! ### Pointwise behaviour of the UPDATE row transformers -/

theorem isActiveMain_cancelRow (e' e : Nat) (u : Int) (s : Registration) :
    isActiveMain e' (cancelRow e u s) =
      (isActiveMain e' s && !(isActivePair e u s)) := by
  unfold cancelRow
  cases hps : isActivePair e u s
  · simp
  · have hact : ("cancelled" == "active") = false := by decide
    simp [isActiveMain, hact]

theorem isActiveMain_promoteRow_ne (e' e : Nat) (u : Int) (s : Registration)
    (hne : e' ≠ e) :
    isActiveMain e' (promoteRow e u s) = isActiveMain e' s := by
  unfold promoteRow
  cases hps : isActivePair e u s
  · simp
  · have hse : s.event_id = e := by
      unfold isActivePair at hps
      simp only [Bool.and_eq_true, beq_iff_eq] at hps
      exact hps.1.1
    have h1 : (s.event_id == e') = false := by
      rw [hse]
      exact beq_eq_false_iff_ne.mpr (fun hh => hne hh.symm)
    simp [isActiveMain, h1]

theorem isActiveMain_promoteRow_eq (e : Nat) (u : Int) (s : Registration) :
    isActiveMain e (promoteRow e u s) =
      (isActivePair e u s || isActiveMain e s) := by
  unfold promoteRow
  cases hps : isActivePair e u s
  · simp
  · have hps' := hps
    unfold isActivePair at hps'
    simp only [Bool.and_eq_true, beq_iff_eq] at hps'
    obtain ⟨⟨h1, _⟩, h3⟩ := hps'
    simp [isActiveMain, h1, h3]

theorem promoteRow_type (e : Nat) (u : Int) (s : Registration) :
    (promoteRow e u s).registration_type = "main" ∨
      (promoteRow e u s).registration_type = s.registration_type := by
  unfold promoteRow
  split
  · left; rfl
  · right; rfl

theorem activePair_pair (e : Nat) (u : Int) (s : Registration)
    (h : isActivePair e u s = true) : isPair e u s = true := by
  unfold isActivePair at h
  unfold isPair
  simp only [Bool.and_eq_true] at h ⊢
  exact h.1

theorem countP_or_split {α : Type} (p q : α → Bool) (l : List α) :
    l.countP (fun a => q a || p a) =
      l.countP p + l.countP (fun a => q a && !p a) := by
  induction l with
  | nil => rfl
  | cons x t ih =>
    simp only [List.countP_cons, ih]
    cases hq : q x <;> cases hp : p x <;> simp [hq, hp] <;> omega

/-! ### Counting across the unregister UPDATEs -/

theorem mainCount_cancel_le (regs : List Registration) (e' e : Nat) (u : Int) :
    mainCount (regs.map (cancelRow e u)) e' ≤ mainCount regs e' := by
  simp only [mainCount, ← List.countP_eq_length_filter]
  rw [List.countP_map]
  have h1 : regs.countP (isActiveMain e' ∘ cancelRow e u) =
      regs.countP (fun s => isActiveMain e' s && !(isActivePair e u s)) :=
    List.countP_congr (fun s _ => by
      simp only [Function.comp]
      rw [isActiveMain_cancelRow])
  rw [h1]
  exact List.countP_mono_left (fun s _ hh => by
    revert hh
    cases isActiveMain e' s <;> simp)

theorem mainCount_cancel_main (regs : List Registration) (e : Nat) (u : Int)
    (r0 : Registration) (hr0 : r0 ∈ regs) (hp : isActivePair e u r0 = true)
    (hm : r0.registration_type = "main") :
    mainCount (regs.map (cancelRow e u)) e + 1 ≤ mainCount regs e := by
  simp only [mainCount, ← List.countP_eq_length_filter]
  rw [List.countP_map]
  have h1 : regs.countP (isActiveMain e ∘ cancelRow e u) =
      regs.countP (fun s => isActiveMain e s && !(isActivePair e u s)) :=
    List.countP_congr (fun s _ => by
      simp only [Function.comp]
      rw [isActiveMain_cancelRow])
  have h2 := countP_split (isActiveMain e) (isActivePair e u) regs
  have h3 : 0 < regs.countP (fun s =>
      isActiveMain e s && isActivePair e u s) := by
    refine List.countP_pos_iff.mpr ⟨r0, hr0, ?_⟩
    have hp' := hp
    unfold isActivePair at hp'
    simp only [Bool.and_eq_true, beq_iff_eq] at hp'
    have : isActiveMain e r0 = true := by
      unfold isActiveMain
      simp only [Bool.and_eq_true, beq_iff_eq]
      exact ⟨⟨hp'.1.1, hm⟩, hp'.2⟩
    simp [this, hp]
  omega

theorem mainCount_promote_le (regs1 : List Registration) (e : Nat) (w : Int) :
    mainCount (regs1.map (promoteRow e w)) e ≤
      mainCount regs1 e + regs1.countP (isPair e w) := by
  simp only [mainCount, ← List.countP_eq_length_filter]
  rw [List.countP_map]
  have h1 : regs1.countP (isActiveMain e ∘ promoteRow e w) =
      regs1.countP (fun s => isActivePair e w s || isActiveMain e s) :=
    List.countP_congr (fun s _ => by
      simp only [Function.comp]
      rw [isActiveMain_promoteRow_eq])
  rw [h1, countP_or_split]
  have h2 : regs1.countP (fun s => isActivePair e w s && !isActiveMain e s) ≤
      regs1.countP (isPair e w) :=
    List.countP_mono_left (fun s _ hh => by
      have h3 : isActivePair e w s = true := by
        revert hh
        cases isActivePair e w s <;> simp
      exact activePair_pair e w s h3)
  omega

theorem mainCount_promote_ne (regs1 : List Registration) (e' e : Nat) (w : Int)
    (hne : e' ≠ e) :
    mainCount (regs1.map (promoteRow e w)) e' = mainCount regs1 e' := by
  simp only [mainCount, ← List.countP_eq_length_filter]
  exact countP_map_eq _ _ _ (fun s _ => isActiveMain_promoteRow_ne e' e w s hne)

/-! ### WF preservation for maps over the registrations -/

theorem wf_map_helper (db : DB) (h : WF db) (f : Registration → Registration)
    (hev : ∀ s, (f s).event_id = s.event_id)
    (hus : ∀ s, (f s).user_id = s.user_id)
    (hat : ∀ s, (f s).registered_at = s.registered_at)
    (hty : ∀ s ∈ db.registrations,
      (f s).registration_type = "main" ∨ (f s).registration_type = "reserve")
    (hcap : ∀ ev ∈ db.events,
      mainCount (db.registrations.map f) ev.id ≤ ev.max_players) :
    WF { db with registrations := db.registrations.map f } := by
  obtain ⟨uniq, ty, evlt, evuniq, reglt, atlt, atuniq, cap⟩ := h
  refine ⟨?_, ?_, ?_, ?_, ?_, ?_, ?_, ?_⟩
  · intro e' u'
    have hpt : ∀ s ∈ db.registrations, isPair e' u' (f s) = isPair e' u' s := by
      intro s _
      unfold isPair
      rw [hev s, hus s]
    show (db.registrations.map f).countP (isPair e' u') ≤ 1
    rw [countP_map_eq _ _ _ hpt]
    exact uniq e' u'
  · intro r hm
    rcases List.mem_map.mp hm with ⟨s, hs, rfl⟩
    exact hty s hs
  · exact evlt
  · exact evuniq
  · intro r hm
    rcases List.mem_map.mp hm with ⟨s, hs, rfl⟩
    rw [hev s]
    exact reglt s hs
  · intro r hm
    rcases List.mem_map.mp hm with ⟨s, hs, rfl⟩
    rw [hat s]
    exact atlt s hs
  · exact List.pairwise_map.mpr (atuniq.imp (fun {a b} hab => by
      rw [hat a, hat b]
      exact hab))
  · exact hcap

theorem wf_unregister (db : DB) (h : WF db) (e : Nat) (u : Int) :
    WF (unregister_user db e u).2 := by
  cases hfind : db.registrations.find? (isActivePair e u) with
  | none =>
    simp only [unregister_user, hfind]
    exact h
  | some r0 =>
    have hr0mem : r0 ∈ db.registrations := List.mem_of_find?_eq_some hfind
    have hr0p : isActivePair e u r0 = true := List.find?_some hfind
    have hC := fun s => cancelRow_fields e u s
    have h1 : WF { db with registrations :=
        db.registrations.map (cancelRow e u) } := by
      refine wf_map_helper db h (cancelRow e u)
        (fun s => (hC s).2.1) (fun s => (hC s).2.2.1)
        (fun s => (hC s).2.2.2.2) ?_ ?_
      · intro s hs
        rw [(hC s).2.2.2.1]
        exact h.ty s hs
      · intro ev hm
        exact le_trans (mainCount_cancel_le db.registrations ev.id e u)
          (h.cap ev hm)
    simp only [unregister_user, hfind]
    by_cases hmain : (r0.registration_type == "main") = true
    · rw [if_pos hmain]
      cases hsel : selectReserve (db.registrations.map (cancelRow e u)) e with
      | none => exact h1
      | some w =>
        have hP := fun s => promoteRow_fields e w.user_id s
        refine wf_map_helper _ h1 (promoteRow e w.user_id)
          (fun s => (hP s).2.1) (fun s => (hP s).2.2.1)
          (fun s => (hP s).2.2.2.1) ?_ ?_
        · intro s hs
          rcases promoteRow_type e w.user_id s with ht | ht
          · left; exact ht
          · rw [ht]
            exact h1.ty s hs
        · intro ev hm
          dsimp only
          by_cases hevid : ev.id = e
          · rw [hevid]
            have ha := mainCount_promote_le
              (db.registrations.map (cancelRow e u)) e w.user_id
            have hb : (db.registrations.map (cancelRow e u)).countP
                (isPair e w.user_id) ≤ 1 := by
              rw [countP_map_eq _ _ _
                (fun s _ => isPair_cancelRow e w.user_id e u s)]
              exact h.uniq e w.user_id
            have hc2 : mainCount (db.registrations.map (cancelRow e u)) e + 1 ≤
                mainCount db.registrations e :=
              mainCount_cancel_main db.registrations e u r0 hr0mem hr0p
                (eq_of_beq hmain)
            have hd := h.cap ev hm
            rw [hevid] at hd
            omega
          · rw [mainCount_promote_ne _ _ _ _ hevid]
            exact h1.cap ev hm
    · rw [if_neg hmain]
      exact h1

/-- Every reachable store state is well-formed; in particular the capacity
invariant holds in every reachable state. -/
theorem reachable_wf (db : DB) (h : Reachable db) : WF db := by
  induction h with
  | init => exact wf_initDB
  | create db d t m cb ds _ ih => exact wf_create db ih d t m cb ds
  | register db e u un fn _ ih => exact wf_applyRegister db ih e u un fn
  | unregister db e u _ ih => exact wf_unregister db ih e u
  | cancel db e _ ih => exact wf_cancel db ih e

theorem reachable_dbABC : Reachable dbABC :=
  Reachable.register dbAB 1 9 none (some "Cara")
    (Reachable.register dbA 1 8 (some "bob") (some "Bob")
      (Reachable.register dbE 1 7 (some "alice") (some "Alice")
        (Reachable.create initDB "01/01/2026" "18:00" 2 1 "" Reachable.init)))

/-! ### Characterising the promotion SELECT -/

/-- The row returned by the promotion SELECT is an active reserve row of the
list with the least `registered_at` among them. -/
theorem selectReserve_spec (regs1 : List Registration) (e : Nat)
    (w : Registration) (h : selectReserve regs1 e = some w) :
    w ∈ regs1.filter (isActiveReserve e) ∧
    ∀ c ∈ regs1.filter (isActiveReserve e),
      w.registered_at ≤ c.registered_at := by
  unfold selectReserve at h
  have hperm : (List.insertionSort byRegisteredAt
      (regs1.filter (isActiveReserve e))).Perm
      (regs1.filter (isActiveReserve e)) := List.perm_insertionSort _ _
  have hsort : List.Sorted byRegisteredAt (List.insertionSort byRegisteredAt
      (regs1.filter (isActiveReserve e))) := List.sorted_insertionSort _ _
  cases hs : List.insertionSort byRegisteredAt
      (regs1.filter (isActiveReserve e)) with
  | nil =>
    rw [hs] at h
    cases h
  | cons a tl =>
    rw [hs] at h
    have hw : a = w := by simpa using h
    rw [hs] at hperm hsort
    constructor
    · rw [← hw]
      exact hperm.mem_iff.mp (List.mem_cons_self a tl)
    · intro c hc
      rw [← hw]
      rcases List.mem_cons.mp (hperm.mem_iff.mpr hc) with rfl | hc'
      · exact Nat.le_refl _
      · exact List.rel_of_sorted_cons hsort c hc'

/-- `selectReserve` returns `none` exactly when no active reserve row
exists. -/
theorem selectReserve_none (regs1 : List Registration) (e : Nat)
    (h : selectReserve regs1 e = none) :
    regs1.filter (isActiveReserve e) = [] := by
  unfold selectReserve at h
  have hperm := List.perm_insertionSort byRegisteredAt
    (regs1.filter (isActiveReserve e))
  rw [List.head?_eq_none_iff] at h
  exact List.eq_nil_of_length_eq_zero (by
    rw [← hperm.length_eq, h]
    rfl)

/-- In a list with pairwise-distinct timestamps, two members with the same
timestamp are the same row. -/
theorem pairwise_key_eq :
    ∀ (l : List Registration),
      l.Pairwise (fun a b => a.registered_at ≠ b.registered_at) →
      ∀ a ∈ l, ∀ b ∈ l, a.registered_at = b.registered_at → a = b := by
  intro l
  induction l with
  | nil => intro _ a ha; cases ha
  | cons x t ih =>
    intro hpw a ha b hb hk
    rw [List.pairwise_cons] at hpw
    rcases List.mem_cons.mp ha with rfl | ha' <;>
      rcases List.mem_cons.mp hb with rfl | hb'
    · rfl
    · exact absurd hk (hpw.1 b hb')
    · exact absurd hk.symm (hpw.1 a ha')
    · exact ih hpw.2 a ha' b hb' hk

theorem cancelRow_of_inactive (e : Nat) (u : Int) (s : Registration)
    (h : isActivePair e u s = false) : cancelRow e u s = s := by
  unfold cancelRow
  rw [if_neg (by simp [h])]

/-- When the leaver's row is main-typed, the cancelling UPDATE does not
change the set of active reserve rows of the event. -/
theorem reserveFilter_cancel (db : DB) (h : WF db) (e : Nat) (u : Int)
    (r0 : Registration) (hr0 : r0 ∈ db.registrations)
    (hp : isActivePair e u r0 = true) (hm : r0.registration_type = "main") :
    (db.registrations.map (cancelRow e u)).filter (isActiveReserve e) =
      db.registrations.filter (isActiveReserve e) := by
  apply filter_map_eq_filter
  · intro s hs
    cases hps : isActivePair e u s
    · rw [cancelRow_of_inactive e u s hps]
    · have hse : s = r0 := countP_le_one_mem_eq (isPair e u) db.registrations
        (h.uniq e u) s hs r0 hr0 (activePair_pair _ _ _ hps)
        (activePair_pair _ _ _ hp)
      have hfS : isActiveReserve e s = false := by
        unfold isActiveReserve
        rw [hse, hm]
        simp
      have hfC : isActiveReserve e (cancelRow e u s) = false := by
        unfold cancelRow
        rw [if_pos hps]
        unfold isActiveReserve
        simp
      rw [hfS, hfC]
  · intro s hs hres
    cases hps : isActivePair e u s
    · exact cancelRow_of_inactive e u s hps
    · exfalso
      have hse : s = r0 := countP_le_one_mem_eq (isPair e u) db.registrations
        (h.uniq e u) s hs r0 hr0 (activePair_pair _ _ _ hps)
        (activePair_pair _ _ _ hp)
      unfold isActiveReserve at hres
      simp only [Bool.and_eq_true, beq_iff_eq] at hres
      have h2 := hres.1.2
      rw [hse, hm] at h2
      exact absurd h2 (by decide)

/-! ### Remaining helper lemmas -/

theorem any_map_eq {α : Type} (p : α → Bool) (f : α → α) :
    ∀ (l : List α), (∀ a, p (f a) = p a) → (l.map f).any p = l.any p := by
  intro l h
  induction l with
  | nil => rfl
  | cons x t ih => simp [List.any_cons, h x, ih]

theorem pyStrOr_eq_resolve (fn un : Option String) (uid : Int) :
    pyStrOr fn (pyStrOr un (toString uid)) = resolveDisplayName fn un uid := by
  unfold pyStrOr resolveDisplayName
  cases fn with
  | none =>
    cases un with
    | none => rfl
    | some t => by_cases ht : t = "" <;> simp [ht]
  | some s =>
    by_cases hs : s = ""
    · cases un with
      | none => simp [hs]
      | some t => by_cases ht : t = "" <;> simp [hs, ht]
    · simp [hs]

/-! ### The claims -/

/-- Claim C2: for every reachable store state and every event with
`max_players = M`, the number of registrations for that event with status
`active` and type `main` is at most `M`; reachability makes this bound closed
under every sequentially executed operation (`create_event`, `register_user`,
`unregister_user`, `cancel_event`). -/
theorem capacity_invariant (db : DB) (h : Reachable db) :
    ∀ ev ∈ db.events, mainCount db.registrations ev.id ≤ ev.max_players :=
  (reachable_wf db h).cap

theorem capacity_invariant_witness :
    mainCount dbABC.registrations 1 ≤ 2 :=
  capacity_invariant dbABC reachable_dbABC
    ⟨1, "01/01/2026", "18:00", 2, "", 1, 0, "active"⟩ (by decide)

/-- Claim C6: if the user already has an active registration for the event,
`register_user` returns `False` and the store is left unchanged (no new row,
no modified row). -/
theorem register_duplicate_active (db : DB) (e : Nat) (u : Int)
    (un fn : Option String)
    (h : ∃ r ∈ db.registrations, isActivePair e u r = true) :
    register_user db e u un fn = RegResult.ok false db := by
  have hs : (db.registrations.find? (isActivePair e u)).isSome := by
    rw [List.find?_isSome]
    obtain ⟨r, hr, hp⟩ := h
    exact ⟨r, hr, hp⟩
  unfold register_user
  rw [if_pos hs]

theorem register_duplicate_active_witness :
    register_user dbA 1 7 (some "alice") (some "Alice") =
      RegResult.ok false dbA :=
  register_duplicate_active dbA 1 7 (some "alice") (some "Alice")
    ⟨⟨1, 1, 7, some "alice", some "Alice", "main", 1, "active"⟩,
      by decide, by decide⟩

/-- Claim C7: if the user has no active registration for the event,
`unregister_user` returns `False` and leaves the store completely
unchanged. -/
theorem unregister_not_registered (db : DB) (e : Nat) (u : Int)
    (h : ∀ r ∈ db.registrations, ¬ isActivePair e u r = true) :
    unregister_user db e u = (false, db) := by
  have hn : db.registrations.find? (isActivePair e u) = none :=
    List.find?_eq_none.mpr h
  unfold unregister_user
  rw [hn]

theorem unregister_not_registered_witness :
    unregister_user dbE 1 7 = (false, dbE) :=
  unregister_not_registered dbE 1 7 (by decide)

/-- Claim C8: `cancel_event` modifies only the status field of the targeted
event: the registrations relation is untouched (so the event's registrations
remain queryable and every registration query returns the same result),
every other event is unchanged, and the target keeps every field but
`status`. -/
theorem cancel_event_frame (db : DB) (eid : Nat) :
    ((cancel_event db eid).2).registrations = db.registrations ∧
    (∀ x : Nat, get_event_registrations (cancel_event db eid).2 x =
      get_event_registrations db x) ∧
    (∀ x : Nat, get_players_for_teams (cancel_event db eid).2 x =
      get_players_for_teams db x) ∧
    ((cancel_event db eid).2).events = db.events.map (fun ev =>
      if ev.id == eid then { ev with status := "cancelled" } else ev) ∧
    (∀ ev ∈ db.events, ev.id ≠ eid →
      ev ∈ ((cancel_event db eid).2).events) ∧
    (∀ ev ∈ db.events, ev.id = eid →
      { ev with status := "cancelled" } ∈ ((cancel_event db eid).2).events) := by
  refine ⟨rfl, fun x => rfl, fun x => rfl, rfl, ?_, ?_⟩
  · intro ev hm hne
    refine List.mem_map.mpr ⟨ev, hm, ?_⟩
    rw [if_neg (by simp [hne])]
  · intro ev hm hide
    refine List.mem_map.mpr ⟨ev, hm, ?_⟩
    rw [if_pos (beq_iff_eq.mpr hide)]

/-- Claim C5 counterexample: cancelling event 1 of `dbE` returns `true` and
leaves the event with status `cancelled`; a second `cancel_event` on the same
id *also* returns `true` — `cursor.rowcount` counts rows matched by the
UPDATE, not actual status transitions — contradicting the claimed `false` on
repeat. -/
theorem cancel_event_repeat_counterexample :
    (cancel_event dbE 1).1 = true ∧
    (get_event (cancel_event dbE 1).2 1).map Event.status = some "cancelled" ∧
    (cancel_event (cancel_event dbE 1).2 1).1 = true := by
  decide

/-- Claim C5 (amended): `cancel_event` returns `true` exactly when an event
with that id exists — including when that event is already cancelled — and
`false` only on an unknown id; every matching event afterwards has status
`cancelled`, so a repeated call returns the same value as the first, not
`false`. -/
theorem cancel_event_behaviour (db : DB) (eid : Nat) :
    ((cancel_event db eid).1 = true ↔ ∃ ev ∈ db.events, ev.id = eid) ∧
    (∀ ev ∈ ((cancel_event db eid).2).events, ev.id = eid →
      ev.status = "cancelled") ∧
    (cancel_event (cancel_event db eid).2 eid).1 = (cancel_event db eid).1 := by
  refine ⟨?_, ?_, ?_⟩
  · show db.events.any (fun ev => ev.id == eid) = true ↔ _
    rw [List.any_eq_true]
    constructor
    · rintro ⟨ev, hm, hp⟩
      exact ⟨ev, hm, eq_of_beq hp⟩
    · rintro ⟨ev, hm, hp⟩
      exact ⟨ev, hm, beq_iff_eq.mpr hp⟩
  · intro ev hm hide
    have hm' : ev ∈ db.events.map (fun a =>
        if a.id == eid then { a with status := "cancelled" } else a) := hm
    rcases List.mem_map.mp hm' with ⟨a, _, rfl⟩
    by_cases hc : (a.id == eid) = true
    · rw [if_pos hc]
    · rw [if_neg hc] at hide
      exact absurd (beq_iff_eq.mpr hide) hc
  · exact any_map_eq _ _ db.events (fun a => by
      by_cases hc : (a.id == eid) = true
      · rw [if_pos hc]
      · rw [if_neg hc])

/-- Claim C4 (code-bug evidence): on a store with no event of the requested
id, `register_user` does not return `false`: `fetchone()` yields `None` and
subscripting it (`database.py` line 105) raises an uncaught `TypeError` —
only `sqlite3.IntegrityError` is caught — so the call raises instead. -/
theorem register_unknown_event_raises :
    get_event initDB 1 = none ∧
    register_user initDB 1 7 none none = RegResult.raised :=
  ⟨rfl, rfl⟩

/-- Claim C1 (code-bug evidence): after user 7 successfully unregistered from
event 1 (no active registration remains, exactly one cancelled row for the
pair is stored), a fresh `register_user` for the same pair returns `false`
and inserts nothing: the cancelled row still occupies the table-level
`UNIQUE(event_id, user_id)` slot, so the INSERT raises `IntegrityError`,
which the code converts to `False` — the claimed successful re-registration
never happens. -/
theorem reregister_after_leave_returns_false :
    (unregister_user dbABC 1 7).1 = true ∧
    dbL.registrations.find? (isActivePair 1 7) = none ∧
    dbL.registrations.countP (isPair 1 7) = 1 ∧
    register_user dbL 1 7 (some "alice") (some "Alice") =
      RegResult.ok false dbL := by
  decide

/-- Claim C10: `register_user` never consults the event's status: on an
existing event whose status is `cancelled`, a user with no prior registration
row for it is registered successfully — return value `true` and a new active
row typed `main` or `reserve` by the same capacity rule as for active
events. -/
theorem register_ignores_event_status (db : DB) (e : Nat) (u : Int)
    (un fn : Option String) (ev : Event) (hev : get_event db e = some ev)
    (hstatus : ev.status = "cancelled")
    (hno : ∀ s ∈ db.registrations, isPair e u s = false) :
    register_user db e u un fn = RegResult.ok true
      { db with
          registrations := db.registrations ++
            [⟨db.next_reg_id, e, u, un, fn,
              if mainCount db.registrations e < ev.max_players then "main"
              else "reserve", db.clock, "active"⟩]
          next_reg_id := db.next_reg_id + 1
          clock := db.clock + 1 } := by
  have h1 : ¬ (db.registrations.find? (isActivePair e u)).isSome = true := by
    rw [List.find?_isSome]
    rintro ⟨s, hs, hp⟩
    have := activePair_pair e u s hp
    rw [hno s hs] at this
    cases this
  have h2 : ¬ (db.registrations.find? (isPair e u)).isSome = true := by
    rw [List.find?_isSome]
    rintro ⟨s, hs, hp⟩
    rw [hno s hs] at hp
    cases hp
  simp only [register_user, hev, if_neg h1, if_neg h2]

theorem register_ignores_event_status_witness :
    register_user dbCancelled 1 7 none none = RegResult.ok true
      { dbCancelled with
          registrations := dbCancelled.registrations ++
            [⟨dbCancelled.next_reg_id, 1, 7, none, none,
              if mainCount dbCancelled.registrations 1 <
                (⟨1, "01/01/2026", "18:00", 2, "", 1, 0,
                  "cancelled"⟩ : Event).max_players then "main"
              else "reserve", dbCancelled.clock, "active"⟩]
          next_reg_id := dbCancelled.next_reg_id + 1
          clock := dbCancelled.clock + 1 } :=
  register_ignores_event_status dbCancelled 1 7 none none
    ⟨1, "01/01/2026", "18:00", 2, "", 1, 0, "cancelled"⟩ (by decide) rfl
    (by decide)

/-- Claim C9 counterexample: user 77's registration stores
`first_name = some ""` — a present value, hence not absent — yet
`get_players_for_teams` resolves `display_name` to the username `"bob"`:
Python's `or` also skips empty strings, not only absent values. -/
theorem display_name_counterexample :
    get_players_for_teams dbEmptyFirst 1 =
      [⟨77, some "bob", some "", "bob"⟩] ∧
    ("bob" : String) ≠ "" := by
  refine ⟨by decide, by decide⟩

/-- Claim C9 (amended): `get_players_for_teams` returns exactly the active
main-type registrations of the event (the rows it lists are a permutation of
that set), ordered ascending by `registered_at`, and each entry's
`display_name` is the first *present and non-empty* of `first_name`,
`username`, else the stringified `user_id`. -/
theorem get_players_for_teams_spec (db : DB) (e : Nat) :
    ∃ rows : List Registration,
      rows.Perm (db.registrations.filter (isActiveMain e)) ∧
      rows.Pairwise byRegisteredAt ∧
      get_players_for_teams db e = rows.map (fun r =>
        ⟨r.user_id, r.username, r.first_name,
          resolveDisplayName r.first_name r.username r.user_id⟩) := by
  refine ⟨List.insertionSort byRegisteredAt
    (db.registrations.filter (isActiveMain e)), List.perm_insertionSort _ _,
    List.sorted_insertionSort _ _, ?_⟩
  unfold get_players_for_teams
  refine List.map_congr_left ?_
  intro r _
  rw [pyStrOr_eq_resolve]

/-! ### Row-level behaviour of a successful unregister -/

theorem cancelRow_proj (e : Nat) (u : Int) (s : Registration) :
    (cancelRow e u s).id = s.id ∧ (cancelRow e u s).event_id = s.event_id ∧
    (cancelRow e u s).user_id = s.user_id ∧
    (cancelRow e u s).username = s.username ∧
    (cancelRow e u s).first_name = s.first_name ∧
    (cancelRow e u s).registration_type = s.registration_type ∧
    (cancelRow e u s).registered_at = s.registered_at ∧
    (cancelRow e u s).status =
      (if isActivePair e u s then "cancelled" else s.status) := by
  unfold cancelRow
  cases hps : isActivePair e u s <;> simp [hps]

theorem promoteRow_proj (e : Nat) (u : Int) (s : Registration) :
    (promoteRow e u s).id = s.id ∧ (promoteRow e u s).event_id = s.event_id ∧
    (promoteRow e u s).user_id = s.user_id ∧
    (promoteRow e u s).username = s.username ∧
    (promoteRow e u s).first_name = s.first_name ∧
    (promoteRow e u s).registered_at = s.registered_at ∧
    (promoteRow e u s).status = s.status := by
  unfold promoteRow
  cases hps : isActivePair e u s <;> simp [hps]

theorem unregRowRel_cancel (e : Nat) (u : Int) (s : Registration) :
    unregRowRel e u none s (cancelRow e u s) := by
  unfold unregRowRel cancelRow
  cases hps : isActivePair e u s <;> simp [hps]

/-- The promotion UPDATE's WHERE clause hits the post-cancel row of `r`
exactly when `r` is the selected reserve row `w`, identified by its
timestamp. -/
theorem promo_hits_iff (db : DB) (h : WF db) (e : Nat) (u : Int)
    (r0 : Registration) (hr0 : r0 ∈ db.registrations)
    (hp0 : isActivePair e u r0 = true) (hm0 : r0.registration_type = "main")
    (w : Registration) (hwmem : w ∈ db.registrations)
    (hwres : isActiveReserve e w = true)
    (r : Registration) (hr : r ∈ db.registrations) :
    isActivePair e w.user_id (cancelRow e u r) = true ↔
      r.registered_at = w.registered_at := by
  constructor
  · intro hQ
    have hnp : isActivePair e u r = false := by
      cases hpr : isActivePair e u r
      · rfl
      · exfalso
        have hc : cancelRow e u r = { r with status := "cancelled" } := by
          unfold cancelRow
          rw [if_pos hpr]
        rw [hc] at hQ
        unfold isActivePair at hQ
        simp at hQ
    rw [cancelRow_of_inactive e u r hnp] at hQ
    have hwpair : isPair e w.user_id w = true := by
      unfold isActiveReserve at hwres
      unfold isPair
      simp only [Bool.and_eq_true, beq_iff_eq] at hwres ⊢
      exact ⟨hwres.1.1, trivial⟩
    have hrw : r = w := countP_le_one_mem_eq (isPair e w.user_id)
      db.registrations (h.uniq e w.user_id) r hr w hwmem
      (activePair_pair _ _ _ hQ) hwpair
    rw [hrw]
  · intro hk
    have hrw : r = w := pairwise_key_eq db.registrations h.atuniq r hr w hwmem hk
    have hnp : isActivePair e u w = false := by
      cases hpw : isActivePair e u w
      · rfl
      · exfalso
        have hww : w = r0 := countP_le_one_mem_eq (isPair e u)
          db.registrations (h.uniq e u) w hwmem r0 hr0
          (activePair_pair _ _ _ hpw) (activePair_pair _ _ _ hp0)
        unfold isActiveReserve at hwres
        simp only [Bool.and_eq_true, beq_iff_eq] at hwres
        have h2 := hwres.1.2
        rw [hww, hm0] at h2
        exact absurd h2 (by decide)
    rw [hrw, cancelRow_of_inactive e u w hnp]
    unfold isActiveReserve at hwres
    simp only [Bool.and_eq_true, beq_iff_eq] at hwres
    unfold isActivePair
    simp only [Bool.and_eq_true, beq_iff_eq]
    exact ⟨⟨hwres.1.1, trivial⟩, hwres.2⟩

theorem unregRowRel_promo (db : DB) (h : WF db) (e : Nat) (u : Int)
    (r0 : Registration) (hr0 : r0 ∈ db.registrations)
    (hp0 : isActivePair e u r0 = true) (hm0 : r0.registration_type = "main")
    (w : Registration) (hwmem : w ∈ db.registrations)
    (hwres : isActiveReserve e w = true)
    (r : Registration) (hr : r ∈ db.registrations) :
    unregRowRel e u (some w) r
      (promoteRow e w.user_id (cancelRow e u r)) := by
  have hiff := promo_hits_iff db h e u r0 hr0 hp0 hm0 w hwmem hwres r hr
  have htype : (promoteRow e w.user_id (cancelRow e u r)).registration_type =
      (if r.registered_at = w.registered_at then "main"
       else r.registration_type) := by
    by_cases hQ : isActivePair e w.user_id (cancelRow e u r) = true
    · rw [if_pos (hiff.mp hQ)]
      unfold promoteRow
      rw [if_pos hQ]
    · have hk : ¬ r.registered_at = w.registered_at :=
        fun hk => hQ (hiff.mpr hk)
      rw [if_neg hk]
      unfold promoteRow
      rw [if_neg hQ]
      exact (cancelRow_proj e u r).2.2.2.2.2.1
  obtain ⟨c1, c2, c3, c4, c5, _, c7, c8⟩ := cancelRow_proj e u r
  obtain ⟨p1, p2, p3, p4, p5, p6, p7⟩ :=
    promoteRow_proj e w.user_id (cancelRow e u r)
  exact ⟨p1.trans c1, p2.trans c2, p3.trans c3, p4.trans c4, p5.trans c5,
    p6.trans c7, p7.trans c8, htype⟩

/-- Claim C3: for every well-formed reachable state, if user `u` has an
active main-type registration `r0` for event `e`, then `unregister_user e u`
returns `true`, marks that registration cancelled, and — if at least one
active reserve registration for `e` exists — changes the type of exactly the
one with the earliest `registered_at` to `main` (every other row keeps its
type, status rule and identity as recorded by `unregRowRel`); if no active
reserve registration exists, no row's type changes.  Moreover no other
operation ever changes a stored registration's type: `create_event` and
`cancel_event` leave the registrations relation untouched, and
`register_user` only appends, preserving every existing row. -/
theorem unregister_promotes_earliest (db : DB) (hre : Reachable db)
    (e : Nat) (u : Int) (r0 : Registration)
    (hfind : db.registrations.find? (isActivePair e u) = some r0)
    (hty : r0.registration_type = "main") :
    (unregister_user db e u).1 = true ∧
    (∃ w? : Option Registration,
      (match w? with
       | some w => w ∈ db.registrations ∧ isActiveReserve e w = true ∧
           ∀ c ∈ db.registrations, isActiveReserve e c = true →
             w.registered_at ≤ c.registered_at
       | none => ∀ c ∈ db.registrations, isActiveReserve e c = false) ∧
      ((unregister_user db e u).2).registrations.length =
        db.registrations.length ∧
      ∀ i (hi : i < db.registrations.length),
        ∃ hi' : i < ((unregister_user db e u).2).registrations.length,
          unregRowRel e u w? (db.registrations.get ⟨i, hi⟩)
            (((unregister_user db e u).2).registrations.get ⟨i, hi'⟩)) ∧
    (∀ (db₂ : DB) (d t : String) (m : Nat) (cb : Int) (ds : String),
      ((create_event db₂ d t m cb ds).2).registrations = db₂.registrations) ∧
    (∀ (db₂ : DB) (e₂ : Nat),
      ((cancel_event db₂ e₂).2).registrations = db₂.registrations) ∧
    (∀ (db₂ : DB) (e₂ : Nat) (u₂ : Int) (un fn : Option String)
      (i : Nat) (hi : i < db₂.registrations.length),
      ∃ hi' : i < ((applyRegister db₂ e₂ u₂ un fn).registrations).length,
        ((applyRegister db₂ e₂ u₂ un fn).registrations).get ⟨i, hi'⟩ =
          db₂.registrations.get ⟨i, hi⟩) := by
  have h := reachable_wf db hre
  have hr0mem : r0 ∈ db.registrations := List.mem_of_find?_eq_some hfind
  have hp0 : isActivePair e u r0 = true := List.find?_some hfind
  have hmainb : (r0.registration_type == "main") = true := beq_iff_eq.mpr hty
  have hfil := reserveFilter_cancel db h e u r0 hr0mem hp0 hty
  have hres : unregister_user db e u = (true,
      { db with registrations :=
        if (r0.registration_type == "main") = true then
          match selectReserve (db.registrations.map (cancelRow e u)) e with
          | none => db.registrations.map (cancelRow e u)
          | some w => (db.registrations.map (cancelRow e u)).map
              (promoteRow e w.user_id)
        else db.registrations.map (cancelRow e u) }) := by
    simp only [unregister_user, hfind]
  refine ⟨?_, ?_, fun db₂ d t m cb ds => rfl, fun db₂ e₂ => rfl, ?_⟩
  · rw [hres]
  · rw [hres, if_pos hmainb]
    cases hsel : selectReserve (db.registrations.map (cancelRow e u)) e with
    | none =>
      refine ⟨none, ?_, ?_, ?_⟩
      · have hnil := selectReserve_none _ _ hsel
        rw [hfil] at hnil
        intro c hc
        cases hcr : isActiveReserve e c
        · rfl
        · exfalso
          have hmemf : c ∈ db.registrations.filter (isActiveReserve e) :=
            List.mem_filter.mpr ⟨hc, hcr⟩
          rw [hnil] at hmemf
          cases hmemf
      · show (db.registrations.map (cancelRow e u)).length =
          db.registrations.length
        exact List.length_map _ _
      · intro i hi
        refine ⟨by simpa using hi, ?_⟩
        have hrel := unregRowRel_cancel e u (db.registrations.get ⟨i, hi⟩)
        simpa [List.get_eq_getElem, List.getElem_map] using hrel
    | some w =>
      have hspec := selectReserve_spec _ _ _ hsel
      rw [hfil] at hspec
      obtain ⟨hwmem_f, hwleast_f⟩ := hspec
      have hwmem : w ∈ db.registrations := (List.mem_filter.mp hwmem_f).1
      have hwres : isActiveReserve e w = true := (List.mem_filter.mp hwmem_f).2
      refine ⟨some w, ⟨hwmem, hwres, ?_⟩, ?_, ?_⟩
      · intro c hc hcr
        exact hwleast_f c (List.mem_filter.mpr ⟨hc, hcr⟩)
      · show ((db.registrations.map (cancelRow e u)).map
            (promoteRow e w.user_id)).length = db.registrations.length
        simp
      · intro i hi
        refine ⟨by simpa using hi, ?_⟩
        have hrel := unregRowRel_promo db h e u r0 hr0mem hp0 hty w hwmem
          hwres (db.registrations.get ⟨i, hi⟩)
          (List.get_mem db.registrations i hi)
        simpa [List.get_eq_getElem, List.getElem_map] using hrel
  · intro db₂ e₂ u₂ un fn i hi
    rcases register_user_spec db₂ e₂ u₂ un fn with hc | hc | ⟨ev, _, _, hc⟩
    · have happ : applyRegister db₂ e₂ u₂ un fn = db₂ := by
        unfold applyRegister
        rw [hc]
      rw [happ]
      exact ⟨hi, rfl⟩
    · have happ : applyRegister db₂ e₂ u₂ un fn = db₂ := by
        unfold applyRegister
        rw [hc]
      rw [happ]
      exact ⟨hi, rfl⟩
    · have happ : applyRegister db₂ e₂ u₂ un fn =
          { db₂ with
              registrations := db₂.registrations ++
                [⟨db₂.next_reg_id, e₂, u₂, un, fn,
                  if mainCount db₂.registrations e₂ < ev.max_players then
                    "main" else "reserve", db₂.clock, "active"⟩]
              next_reg_id := db₂.next_reg_id + 1
              clock := db₂.clock + 1 } := by
        unfold applyRegister
        rw [hc]
      rw [happ]
      refine ⟨by simp; omega, ?_⟩
      simp only [List.get_eq_getElem]
      rw [List.getElem_append_left]

theorem unregister_promotes_earliest_witness :
    (unregister_user dbABC 1 7).1 = true :=
  (unregister_promotes_earliest dbABC reachable_dbABC 1 7
    ⟨1, 1, 7, some "alice", some "Alice", "main", 1, "active"⟩ (by decide)
    rfl).1
